import Mathlib

/-!
# Verification of the Hire-Ai candidate ranking and interview-scheduling pipeline

Shallow embedding of the core services of the Hire-Ai backend
(`backend/app/services/candidate_ranker.py`, `resume_parser.py`,
`resume_analyzer.py`, `calendar_scheduler.py`, `email_service.py` and
`backend/app/agents/hr_agent.py`) in Lean 4, together with proofs of the
behavioural properties stated in the design specification.

Python dicts are modelled as Lean structures whose optional fields are
`Option`-typed; `dict.get(k, d)` becomes `Option.getD`.  External
collaborators (the calendar API, the SMTP mailer, the LLM oracle) are
modelled as explicit function parameters.  All definitions are executable.
-/

/-- A candidate match assessment, as consumed by `CandidateRanker`
(`candidate_ranker.py`).  The Python code works on plain dicts and reads the
three numeric fields with `x.get(field, 0)`, so each score is `Option Int`
(absent = key missing from the dict).  `payload` stands for all the other
dict entries (name, summary, …): it gives distinct dicts a distinct identity
without affecting the sort key, which is what ranking and tiering need. -/
structure Assessment where
  overall_score : Option Int
  skill_score : Option Int
  experience_score : Option Int
  payload : Nat
deriving DecidableEq, Repr

/-- `x.get('overall_score', 0)` -/
def ovScore (a : Assessment) : Int := a.overall_score.getD 0

/-- `x.get('skill_score', 0)` -/
def skScore (a : Assessment) : Int := a.skill_score.getD 0

/-- `x.get('experience_score', 0)` -/
def exScore (a : Assessment) : Int := a.experience_score.getD 0

/-- The tuple `(overall, skill, experience)` with missing fields read as 0. -/
def scoreKey (a : Assessment) : Int × Int × Int := (ovScore a, skScore a, exScore a)

/-- The Python sort key `(-overall, -skill, -experience)` from
`rank_candidates` (`candidate_ranker.py` lines 27–34). -/
def sortKey (a : Assessment) : Int × Int × Int := (-(ovScore a), -(skScore a), -(exScore a))

/-- Lexicographic `≤` on integer triples: the order Python uses when
comparing the 3-tuples produced by the sort key. -/
def lexLe3 (x y : Int × Int × Int) : Bool :=
  decide (x.1 < y.1) ||
    (decide (x.1 = y.1) &&
      (decide (x.2.1 < y.2.1) ||
        (decide (x.2.1 = y.2.1) && decide (x.2.2 ≤ y.2.2))))

/-- `CandidateRanker.rank_candidates`: Python's built-in `sorted` is a stable
merge sort, embedded here as `List.mergeSort` (also a stable merge sort) with
the lexicographic comparison on the key `(-overall, -skill, -experience)`.
The `except` branch of the Python function is unreachable in this model:
`.get` with a default and integer tuple comparison cannot raise. -/
def rank_candidates (analyses : List Assessment) : List Assessment :=
  analyses.mergeSort fun a b => lexLe3 (sortKey a) (sortKey b)

theorem lexLe3_trans (a b c : Int × Int × Int) :
    lexLe3 a b → lexLe3 b c → lexLe3 a c := by
  simp only [lexLe3, Bool.or_eq_true, Bool.and_eq_true, decide_eq_true_eq]
  omega

theorem lexLe3_total (a b : Int × Int × Int) : lexLe3 a b || lexLe3 b a := by
  simp only [lexLe3, Bool.or_eq_true, Bool.and_eq_true, decide_eq_true_eq]
  omega

theorem lexLe3_sortKey_flip (a b : Assessment) :
    lexLe3 (sortKey a) (sortKey b) = lexLe3 (scoreKey b) (scoreKey a) := by
  simp only [lexLe3, sortKey, scoreKey]
  by_cases h1 : ovScore a = ovScore b <;>
    by_cases h2 : skScore a = skScore b <;>
      simp [h1, h2] <;> omega

theorem lexLe3_refl (a : Int × Int × Int) : lexLe3 a a := by
  simp [lexLe3]

/-- helper: the sort key is determined by the score key. -/
theorem sortKey_eq_of_scoreKey_eq {a b : Assessment}
    (h : scoreKey a = scoreKey b) : sortKey a = sortKey b := by
  simp only [scoreKey, Prod.mk.injEq] at h
  simp [sortKey, h.1, h.2.1, h.2.2]

/-- helper: stability of `rank_candidates`, phrased as filter-preservation:
the sub-list of assessments with any fixed score key is returned unchanged. -/
theorem rank_candidates_filter_key (l : List Assessment) (k : Int × Int × Int) :
    (rank_candidates l).filter (fun a => decide (scoreKey a = k))
      = l.filter (fun a => decide (scoreKey a = k)) := by
  set p : Assessment → Bool := fun a => decide (scoreKey a = k) with hp
  have hkey : ∀ a ∈ l.filter p, scoreKey a = k := by
    intro a ha
    have := (List.mem_filter.mp ha).2
    simpa [hp] using this
  have hpair : (l.filter p).Pairwise (fun a b => lexLe3 (sortKey a) (sortKey b)) := by
    apply List.pairwise_of_forall_mem_list
    intro a ha b hb
    have : sortKey a = sortKey b :=
      sortKey_eq_of_scoreKey_eq ((hkey a ha).trans (hkey b hb).symm)
    rw [this]
    exact lexLe3_refl _
  have hsub : List.Sublist (l.filter p) (rank_candidates l) := by
    rw [rank_candidates]
    exact List.sublist_mergeSort
      (fun a b c => lexLe3_trans (sortKey a) (sortKey b) (sortKey c))
      (fun a b => lexLe3_total (sortKey a) (sortKey b)) hpair (List.filter_sublist l)
  have hself : (l.filter p).filter p = l.filter p :=
    List.filter_eq_self.mpr fun a ha => (List.mem_filter.mp ha).2
  have hsub2 : List.Sublist (l.filter p) ((rank_candidates l).filter p) := by
    have := hsub.filter p
    rwa [hself] at this
  have hperm : List.Perm ((rank_candidates l).filter p) (l.filter p) := by
    rw [rank_candidates]
    exact (List.mergeSort_perm l _).filter p
  exact (hsub2.eq_of_length hperm.length_eq.symm).symm

/-- **C1**. `rank_candidates` returns a permutation of its input (so no
element is created, dropped or mutated), the output is non-increasing in
`(overall_score, skill_score, experience_score)` lexicographically with
missing fields read as 0, and the sort is stable: the assessments sharing
any fixed score key appear in the output exactly in their input order. -/
theorem c1_rank_stable_sorted_perm (l : List Assessment) :
    (rank_candidates l).Perm l
    ∧ (rank_candidates l).Pairwise (fun a b => lexLe3 (scoreKey b) (scoreKey a))
    ∧ ∀ k : Int × Int × Int,
        (rank_candidates l).filter (fun a => decide (scoreKey a = k))
          = l.filter (fun a => decide (scoreKey a = k)) := by
  refine ⟨List.mergeSort_perm l _, ?_, fun k => rank_candidates_filter_key l k⟩
  have h := @List.sorted_mergeSort Assessment
    (fun a b => lexLe3 (sortKey a) (sortKey b))
    (fun a b c => lexLe3_trans (sortKey a) (sortKey b) (sortKey c))
    (fun a b => lexLe3_total (sortKey a) (sortKey b)) l
  rw [rank_candidates]
  exact h.imp (by intro a b hab; rwa [lexLe3_sortKey_flip] at hab)

/-- The four tier lists returned by `CandidateRanker.categorize_candidates`
(`candidate_ranker.py` lines 86–104). -/
structure Categories where
  top_tier : List Assessment
  mid_tier : List Assessment
  low_tier : List Assessment
  not_recommended : List Assessment
deriving DecidableEq, Repr

/-- `CandidateRanker.categorize_candidates`: one pass over the candidates,
appending each to exactly one tier list according to
`candidate.get('overall_score', 0)`. -/
def categorize_candidates (ranked_candidates : List Assessment) : Categories :=
  ranked_candidates.foldl
    (fun categories candidate =>
      let score := candidate.overall_score.getD 0
      if score ≥ 80 then
        { categories with top_tier := categories.top_tier ++ [candidate] }
      else if score ≥ 60 then
        { categories with mid_tier := categories.mid_tier ++ [candidate] }
      else if score ≥ 40 then
        { categories with low_tier := categories.low_tier ++ [candidate] }
      else
        { categories with not_recommended := categories.not_recommended ++ [candidate] })
    ⟨[], [], [], []⟩

/-- Tier membership tests, matching the branch conditions of
`categorize_candidates` (used to characterise the four output lists). -/
def inTop (a : Assessment) : Bool := decide (80 ≤ ovScore a)

def inMid (a : Assessment) : Bool := decide (¬ 80 ≤ ovScore a ∧ 60 ≤ ovScore a)

def inLow (a : Assessment) : Bool :=
  decide (¬ 80 ≤ ovScore a ∧ ¬ 60 ≤ ovScore a ∧ 40 ≤ ovScore a)

def inNR (a : Assessment) : Bool :=
  decide (¬ 80 ≤ ovScore a ∧ ¬ 60 ≤ ovScore a ∧ ¬ 40 ≤ ovScore a)

/-- helper: the fold underlying `categorize_candidates`, relative to an
arbitrary accumulator. -/
theorem categorize_foldl (l : List Assessment) (acc : Categories) :
    l.foldl
      (fun categories candidate =>
        let score := candidate.overall_score.getD 0
        if score ≥ 80 then
          { categories with top_tier := categories.top_tier ++ [candidate] }
        else if score ≥ 60 then
          { categories with mid_tier := categories.mid_tier ++ [candidate] }
        else if score ≥ 40 then
          { categories with low_tier := categories.low_tier ++ [candidate] }
        else
          { categories with not_recommended := categories.not_recommended ++ [candidate] })
      acc
    = ⟨acc.top_tier ++ l.filter inTop, acc.mid_tier ++ l.filter inMid,
       acc.low_tier ++ l.filter inLow, acc.not_recommended ++ l.filter inNR⟩ := by
  induction l generalizing acc with
  | nil => simp
  | cons a l ih =>
    simp only [List.foldl_cons, List.filter_cons]
    rw [ih]
    by_cases h80 : (80 : Int) ≤ a.overall_score.getD 0
    · simp [inTop, inMid, inLow, inNR, ovScore, ge_iff_le, h80]
    · by_cases h60 : (60 : Int) ≤ a.overall_score.getD 0
      · simp [inTop, inMid, inLow, inNR, ovScore, ge_iff_le, h80, h60]
      · by_cases h40 : (40 : Int) ≤ a.overall_score.getD 0
        · simp [inTop, inMid, inLow, inNR, ovScore, ge_iff_le, h80, h60, h40]
        · simp [inTop, inMid, inLow, inNR, ovScore, ge_iff_le, h80, h60, h40]

/-- helper: the four tier lists are the four filters of the input. -/
theorem categorize_eq_filters (l : List Assessment) :
    categorize_candidates l
      = ⟨l.filter inTop, l.filter inMid, l.filter inLow, l.filter inNR⟩ := by
  rw [categorize_candidates, categorize_foldl]
  simp

/-- helper: the four tier filters together have the length of the input. -/
theorem filter_tier_length_sum (l : List Assessment) :
    (l.filter inTop).length + (l.filter inMid).length + (l.filter inLow).length
      + (l.filter inNR).length = l.length := by
  induction l with
  | nil => simp
  | cons a l ih =>
    simp only [List.filter_cons, List.length_cons]
    by_cases h80 : (80 : Int) ≤ ovScore a <;> by_cases h60 : (60 : Int) ≤ ovScore a <;>
      by_cases h40 : (40 : Int) ≤ ovScore a <;>
        simp [inTop, inMid, inLow, inNR, h80, h60, h40] <;> omega

/-- helper: the tier sizes sum to the input length. -/
theorem categorize_length_sum (l : List Assessment) :
    (categorize_candidates l).top_tier.length + (categorize_candidates l).mid_tier.length
      + (categorize_candidates l).low_tier.length
      + (categorize_candidates l).not_recommended.length = l.length := by
  rw [categorize_eq_filters]
  simpa using filter_tier_length_sum l

/-- **C8**. `categorize_candidates` partitions any input (including the empty
list) into the four tiers: the tier sizes sum to the input length, every
input candidate lands in at least one tier, no candidate value lies in two
different tiers, and for scores inside the clamped range `[0,100]` (missing
scores read as 0) tier membership is exactly the advertised closed bands
top `[80,100]`, mid `[60,79]`, low `[40,59]`, not_recommended `[0,39]`. -/
theorem c8_categorize_four_tier_partition (l : List Assessment) :
    ((categorize_candidates l).top_tier.length + (categorize_candidates l).mid_tier.length
      + (categorize_candidates l).low_tier.length
      + (categorize_candidates l).not_recommended.length = l.length)
    ∧ (∀ c ∈ l,
        c ∈ (categorize_candidates l).top_tier ∨ c ∈ (categorize_candidates l).mid_tier
          ∨ c ∈ (categorize_candidates l).low_tier
          ∨ c ∈ (categorize_candidates l).not_recommended)
    ∧ (∀ c : Assessment,
        ¬ (c ∈ (categorize_candidates l).top_tier ∧ c ∈ (categorize_candidates l).mid_tier)
        ∧ ¬ (c ∈ (categorize_candidates l).top_tier ∧ c ∈ (categorize_candidates l).low_tier)
        ∧ ¬ (c ∈ (categorize_candidates l).top_tier
              ∧ c ∈ (categorize_candidates l).not_recommended)
        ∧ ¬ (c ∈ (categorize_candidates l).mid_tier ∧ c ∈ (categorize_candidates l).low_tier)
        ∧ ¬ (c ∈ (categorize_candidates l).mid_tier
              ∧ c ∈ (categorize_candidates l).not_recommended)
        ∧ ¬ (c ∈ (categorize_candidates l).low_tier
              ∧ c ∈ (categorize_candidates l).not_recommended))
    ∧ (∀ c ∈ l, 0 ≤ ovScore c → ovScore c ≤ 100 →
        (c ∈ (categorize_candidates l).top_tier ↔ 80 ≤ ovScore c ∧ ovScore c ≤ 100)
        ∧ (c ∈ (categorize_candidates l).mid_tier ↔ 60 ≤ ovScore c ∧ ovScore c ≤ 79)
        ∧ (c ∈ (categorize_candidates l).low_tier ↔ 40 ≤ ovScore c ∧ ovScore c ≤ 59)
        ∧ (c ∈ (categorize_candidates l).not_recommended
            ↔ 0 ≤ ovScore c ∧ ovScore c ≤ 39)) := by
  refine ⟨categorize_length_sum l, ?_, ?_, ?_⟩
  · intro c hc
    simp only [categorize_eq_filters, List.mem_filter, inTop, inMid, inLow, inNR,
      decide_eq_true_eq, hc, true_and]
    omega
  · intro c
    by_cases hc : c ∈ l
    · simp only [categorize_eq_filters, List.mem_filter, inTop, inMid, inLow, inNR,
        decide_eq_true_eq, hc, true_and]
      omega
    · simp [categorize_eq_filters, List.mem_filter, hc]
  · intro c hc h0 h100
    simp only [categorize_eq_filters, List.mem_filter, inTop, inMid, inLow, inNR,
      decide_eq_true_eq, hc, true_and]
    omega

/-- Concrete assessments used to instantiate the categoriser theorems. -/
def asmtA : Assessment := ⟨some 85, none, none, 0⟩

def asmtHigh : Assessment := ⟨some 150, none, none, 1⟩

def asmtNeg : Assessment := ⟨some (-5), none, none, 2⟩

/-- Witness for `c8_categorize_four_tier_partition` at a concrete input. -/
theorem c8_categorize_four_tier_partition_witness :
    (asmtA ∈ (categorize_candidates [asmtA]).top_tier ↔ 80 ≤ ovScore asmtA ∧ ovScore asmtA ≤ 100)
    ∧ (asmtA ∈ (categorize_candidates [asmtA]).mid_tier ↔ 60 ≤ ovScore asmtA ∧ ovScore asmtA ≤ 79)
    ∧ (asmtA ∈ (categorize_candidates [asmtA]).low_tier ↔ 40 ≤ ovScore asmtA ∧ ovScore asmtA ≤ 59)
    ∧ (asmtA ∈ (categorize_candidates [asmtA]).not_recommended
        ↔ 0 ≤ ovScore asmtA ∧ ovScore asmtA ≤ 39) :=
  (c8_categorize_four_tier_partition [asmtA]).2.2.2 asmtA (by decide) (by decide) (by decide)

/-- **C10**. `categorize_candidates` is total over arbitrary integer scores:
a score above 100 still lands in `top_tier`, a negative score still lands in
`not_recommended`, and the four-way partition (sizes summing to the input
length, every candidate in at least one tier) holds with no range
assumption. -/
theorem c10_categorize_out_of_range_total (l : List Assessment) :
    (∀ c ∈ l,
      (100 < ovScore c → c ∈ (categorize_candidates l).top_tier)
      ∧ (ovScore c < 0 → c ∈ (categorize_candidates l).not_recommended))
    ∧ ((categorize_candidates l).top_tier.length + (categorize_candidates l).mid_tier.length
        + (categorize_candidates l).low_tier.length
        + (categorize_candidates l).not_recommended.length = l.length)
    ∧ (∀ c ∈ l,
        c ∈ (categorize_candidates l).top_tier ∨ c ∈ (categorize_candidates l).mid_tier
          ∨ c ∈ (categorize_candidates l).low_tier
          ∨ c ∈ (categorize_candidates l).not_recommended) := by
  refine ⟨?_, categorize_length_sum l, ?_⟩
  · intro c hc
    simp only [categorize_eq_filters, List.mem_filter, inTop, inMid, inLow, inNR,
      decide_eq_true_eq, hc, true_and]
    omega
  · intro c hc
    simp only [categorize_eq_filters, List.mem_filter, inTop, inMid, inLow, inNR,
      decide_eq_true_eq, hc, true_and]
    omega

/-- Witness for `c10_categorize_out_of_range_total` at a concrete input with
an over-range and a negative score. -/
theorem c10_categorize_out_of_range_total_witness :
    asmtHigh ∈ (categorize_candidates [asmtHigh, asmtNeg]).top_tier
    ∧ asmtNeg ∈ (categorize_candidates [asmtHigh, asmtNeg]).not_recommended :=
  ⟨((c10_categorize_out_of_range_total [asmtHigh, asmtNeg]).1 asmtHigh (by decide)).1
      (by decide),
   ((c10_categorize_out_of_range_total [asmtHigh, asmtNeg]).1 asmtNeg (by decide)).2
      (by decide)⟩

/-- The whitespace characters stripped by Python's `str.strip()` (ASCII
whitespace, which is all that the resume text paths produce). -/
def pyIsSpace (c : Char) : Bool :=
  c == ' ' || c == '\t' || c == '\n' || c == '\r' || c == '\x0b' || c == '\x0c'

/-- Python `text.strip()`: drop leading and trailing whitespace only. -/
def pyStrip (l : List Char) : List Char :=
  ((l.dropWhile pyIsSpace).reverse.dropWhile pyIsSpace).reverse

/-- `text` starts with `pat` (character-wise). -/
def startsWith : List Char → List Char → Bool
  | _, [] => true
  | [], _ :: _ => false
  | c :: cs, p :: ps => c == p && startsWith cs ps

/-- Python's substring test `pat in text`: `pat` occurs contiguously in
`text`. -/
def containsSub (pat : List Char) : List Char → Bool
  | [] => pat.isEmpty
  | c :: cs => startsWith (c :: cs) pat || containsSub pat cs

/-- The fixed keyword list of `ResumeParser.validate_resume`
(`resume_parser.py` lines 88–92). -/
def resume_keywords : List (List Char) :=
  ["experience".toList, "education".toList, "skills".toList, "work".toList,
   "resume".toList, "curriculum vitae".toList, "employment".toList,
   "university".toList, "college".toList, "degree".toList,
   "certification".toList, "project".toList, "professional".toList]

/-- `ResumeParser.validate_resume` (`resume_parser.py` lines 73–98):
reject when the text is falsy or its `strip()` has fewer than 100
characters; otherwise accept iff at least 2 keywords occur in the
lowercased text (`keyword in text_lower` is a substring test). -/
def validate_resume (text : List Char) : Bool :=
  if text = [] ∨ (pyStrip text).length < 100 then false
  else decide (2 ≤ resume_keywords.countP
    (fun kw => containsSub kw (text.map Char.toLower)))

/-- The validity predicate exactly as claim C7 words it ("at least 100
non-whitespace characters and at least 2 keyword matches"), stated from the
spec's words for comparison with the source's `validate_resume`. -/
def spec_is_plausible_resume (text : List Char) : Bool :=
  decide (100 ≤ (text.filter (fun c => !(pyIsSpace c))).length)
    && decide (2 ≤ resume_keywords.countP
      (fun kw => containsSub kw (text.map Char.toLower)))

/-- A text accepted by the code but with only 19 non-whitespace characters:
two keywords separated by 85 interior spaces.  `strip()` removes none of the
interior spaces, so the length test sees 104 characters. -/
def cexResumeText : List Char :=
  "experience".toList ++ List.replicate 85 ' ' ++ "education".toList

/-- **C7, counterexample**.  `validate_resume` accepts `cexResumeText`
although it has fewer than 100 non-whitespace characters: the code measures
`len(text.strip())`, which counts interior whitespace, not the number of
non-whitespace characters. -/
theorem c7_validate_resume_counterexample :
    validate_resume cexResumeText = true
    ∧ spec_is_plausible_resume cexResumeText = false := by
  constructor
  · decide
  · decide

/-- **C7, amended**.  `validate_resume` returns true exactly when the text,
after stripping leading and trailing whitespace only, still has at least 100
characters, and at least 2 of the fixed keywords occur in the lowercased
text. -/
theorem c7_validate_resume_amended (text : List Char) :
    validate_resume text = true
      ↔ 100 ≤ (pyStrip text).length
        ∧ 2 ≤ resume_keywords.countP
            (fun kw => containsSub kw (text.map Char.toLower)) := by
  constructor
  · intro h
    by_cases hc : text = [] ∨ (pyStrip text).length < 100
    · simp [validate_resume, hc] at h
    · simp only [validate_resume, if_neg hc, decide_eq_true_eq] at h
      rw [not_or] at hc
      obtain ⟨hc1, hc2⟩ := hc
      exact ⟨by omega, h⟩
  · rintro ⟨h1, h2⟩
    have hne : ¬ (text = [] ∨ (pyStrip text).length < 100) := by
      push_neg
      refine ⟨?_, by omega⟩
      rintro rfl
      simp [pyStrip] at h1
    simp only [validate_resume, if_neg hne, decide_eq_true_eq]
    exact h2

/-- A JSON value in a score position of the oracle's output, as seen by
Python's `int(...)`: either a value that `int()` coerces to the integer `i`
(an int, a bool, a numeric string, a float truncated toward zero), or a
value on which `int()` raises (a non-numeric string, a list, ...). -/
inductive PyVal where
  | pvInt (i : Int) : PyVal
  | pvBad : PyVal
deriving DecidableEq, Repr

/-- Python `int(v)`: the coerced integer, or an exception. -/
def pyInt : PyVal → Except Unit Int
  | .pvInt i => .ok i
  | .pvBad => .error ()

/-- One entry of the oracle's parsed JSON dict: the key may be missing
altogether, present with JSON null (Python `None`), or present with a
value.  The distinction matters because `result.get(key, default)` only
defaults a missing key — a present null is passed through. -/
inductive JField (α : Type) where
  | missing : JField α
  | null : JField α
  | val : α → JField α
deriving DecidableEq, Repr

/-- Python `result.get(key, default)`: the default only replaces a missing
key; `none` is Python `None`, from a key present with JSON null. -/
def jGet {α : Type} (v : JField α) (default : α) : Option α :=
  match v with
  | .missing => some default
  | .null => none
  | .val a => some a

/-- The parsed JSON object returned by the LLM (`resume_analyzer.py` reads
each key with `result.get(...)`). -/
structure OracleJson where
  candidate_name : JField String
  email : JField String
  phone : JField String
  overall_score : JField PyVal
  skill_score : JField PyVal
  experience_score : JField PyVal
  matched_skills : JField (List String)
  missing_skills : JField (List String)
  years_of_experience : JField String
  summary : JField String
  match_reasoning : JField String
  strengths : JField (List String)
  areas_for_improvement : JField (List String)
deriving Repr

/-- The normalized analysis dict.  The three scores are plain integers
because a null or non-coercible score makes `int()` raise, diverting the
whole call to the default analysis; the remaining fields are `Option`-typed
because `.get` passes a present JSON null through as `None`. -/
structure Analysis where
  candidate_name : Option String
  email : Option String
  phone : Option String
  overall_score : Int
  skill_score : Int
  experience_score : Int
  matched_skills : Option (List String)
  missing_skills : Option (List String)
  years_of_experience : Option String
  summary : Option String
  match_reasoning : Option String
  strengths : Option (List String)
  areas_for_improvement : Option (List String)
deriving DecidableEq, Repr

/-- `min(100, max(0, int(result.get(field, 50))))`
(`resume_analyzer.py` lines 98–100): `int(None)` (a key present with JSON
null) and `int(<non-numeric>)` raise. -/
def clampScore (v : JField PyVal) : Except Unit Int :=
  match jGet v (.pvInt 50) with
  | none => .error ()
  | some pv =>
    match pyInt pv with
    | .error u => .error u
    | .ok i => .ok (min 100 (max 0 i))

/-- `ResumeAnalyzer._normalize_analysis_result` (`resume_analyzer.py` lines
92–108).  Only the three `int(...)` coercions can raise, so sequencing them
first is observably identical to Python's in-order dict-literal
evaluation. -/
def normalize_analysis_result (result : OracleJson) : Except Unit Analysis :=
  match clampScore result.overall_score with
  | .error u => .error u
  | .ok o =>
  match clampScore result.skill_score with
  | .error u => .error u
  | .ok s =>
  match clampScore result.experience_score with
  | .error u => .error u
  | .ok e =>
  .ok
    { candidate_name := jGet result.candidate_name "Unknown"
      email := jGet result.email ""
      phone := jGet result.phone ""
      overall_score := o
      skill_score := s
      experience_score := e
      matched_skills := jGet result.matched_skills []
      missing_skills := jGet result.missing_skills []
      years_of_experience := jGet result.years_of_experience "Unknown"
      summary := jGet result.summary "No summary available"
      match_reasoning := jGet result.match_reasoning ""
      strengths := jGet result.strengths []
      areas_for_improvement := jGet result.areas_for_improvement [] }

/-- `ResumeAnalyzer._get_default_analysis` (`resume_analyzer.py` lines
110–126): every field carries a real (non-None) value. -/
def get_default_analysis : Analysis :=
  { candidate_name := some "Unknown", email := some "", phone := some "",
    overall_score := 0, skill_score := 0, experience_score := 0,
    matched_skills := some [], missing_skills := some [],
    years_of_experience := some "Unknown", summary := some "Analysis failed",
    match_reasoning := some "Unable to analyze this resume due to an error",
    strengths := some [], areas_for_improvement := some [] }

/-- `ResumeAnalyzer.analyze_resume` (`resume_analyzer.py` lines 20–56) with
the LLM call folded into one oracle-outcome parameter: `.error ()` stands
for an API exception, empty content, or unparseable JSON.  An exception
inside `_normalize_analysis_result` (a score `int()` cannot coerce) is
caught by the same `except` and also yields the default analysis. -/
def analyze_resume (oracle : Except Unit OracleJson) : Analysis :=
  match oracle with
  | .error _ => get_default_analysis
  | .ok result =>
    match normalize_analysis_result result with
    | .error _ => get_default_analysis
    | .ok a => a

/-- helper: a successfully clamped score lies in `[0, 100]`. -/
theorem clampScore_range (v : JField PyVal) (i : Int) (h : clampScore v = .ok i) :
    0 ≤ i ∧ i ≤ 100 := by
  cases v with
  | missing =>
    simp only [clampScore, jGet, pyInt, Except.ok.injEq] at h
    omega
  | null => simp [clampScore, jGet] at h
  | val pv =>
    cases pv with
    | pvInt j =>
      simp only [clampScore, jGet, pyInt, Except.ok.injEq] at h
      omega
    | pvBad => simp [clampScore, jGet, pyInt] at h

/-- helper: a successful normalization is the record of the `.get` results
together with the three clamped scores. -/
theorem normalize_ok_fields (r : OracleJson) (a : Analysis)
    (h : normalize_analysis_result r = .ok a) :
    ∃ o s e, clampScore r.overall_score = .ok o
      ∧ clampScore r.skill_score = .ok s
      ∧ clampScore r.experience_score = .ok e
      ∧ a = { candidate_name := jGet r.candidate_name "Unknown"
              email := jGet r.email ""
              phone := jGet r.phone ""
              overall_score := o
              skill_score := s
              experience_score := e
              matched_skills := jGet r.matched_skills []
              missing_skills := jGet r.missing_skills []
              years_of_experience := jGet r.years_of_experience "Unknown"
              summary := jGet r.summary "No summary available"
              match_reasoning := jGet r.match_reasoning ""
              strengths := jGet r.strengths []
              areas_for_improvement := jGet r.areas_for_improvement [] } := by
  cases h1 : clampScore r.overall_score with
  | error u => simp [normalize_analysis_result, h1] at h
  | ok o =>
    cases h2 : clampScore r.skill_score with
    | error u => simp [normalize_analysis_result, h1, h2] at h
    | ok s =>
      cases h3 : clampScore r.experience_score with
      | error u => simp [normalize_analysis_result, h1, h2, h3] at h
      | ok e =>
        refine ⟨o, s, e, rfl, rfl, rfl, ?_⟩
        simp [normalize_analysis_result, h1, h2, h3] at h
        exact h.symm

/-- The oracle output whose `email` key is present with JSON null and whose
other keys are all missing. -/
def oracleJsonNullEmail : OracleJson :=
  { candidate_name := .missing, email := .null, phone := .missing,
    overall_score := .missing, skill_score := .missing,
    experience_score := .missing, matched_skills := .missing,
    missing_skills := .missing, years_of_experience := .missing,
    summary := .missing, match_reasoning := .missing, strengths := .missing,
    areas_for_improvement := .missing }

/-- **C6, counterexample**.  `result.get("email", "")` only defaults a
missing key: for the oracle output `{"email": null}` normalization succeeds
(the three missing scores default to 50) and the produced assessment
carries a null email — some oracle outputs do yield a null optional field,
contrary to the claim's "never null". -/
theorem c6_never_null_counterexample :
    (analyze_resume (.ok oracleJsonNullEmail)).email = none
    ∧ (analyze_resume (.ok oracleJsonNullEmail)).overall_score = 50 :=
  ⟨rfl, rfl⟩

/-- **C6, amended**.  For every oracle outcome the three scores of the
produced assessment are integers in `[0,100]`; every optional field whose
key the oracle omitted is present with its documented default (no field is
ever absent from the output record); but an optional non-score field whose
key is present with JSON null is passed through as null by `.get`. -/
theorem c6_analyze_resume_amended (oracle : Except Unit OracleJson) :
    (0 ≤ (analyze_resume oracle).overall_score
      ∧ (analyze_resume oracle).overall_score ≤ 100)
    ∧ (0 ≤ (analyze_resume oracle).skill_score
      ∧ (analyze_resume oracle).skill_score ≤ 100)
    ∧ (0 ≤ (analyze_resume oracle).experience_score
      ∧ (analyze_resume oracle).experience_score ≤ 100)
    ∧ (∀ r, oracle = .ok r →
        (r.candidate_name = .missing
          → (analyze_resume oracle).candidate_name = some "Unknown")
        ∧ (r.email = .missing → (analyze_resume oracle).email = some "")
        ∧ (r.phone = .missing → (analyze_resume oracle).phone = some "")
        ∧ (r.matched_skills = .missing
          → (analyze_resume oracle).matched_skills = some [])
        ∧ (r.missing_skills = .missing
          → (analyze_resume oracle).missing_skills = some [])
        ∧ (r.years_of_experience = .missing
            → (analyze_resume oracle).years_of_experience = some "Unknown")
        ∧ (r.strengths = .missing → (analyze_resume oracle).strengths = some [])
        ∧ (r.areas_for_improvement = .missing
            → (analyze_resume oracle).areas_for_improvement = some [])
        ∧ (r.summary = .missing →
            ((analyze_resume oracle).summary = some "No summary available"
              ∨ (analyze_resume oracle).summary = some "Analysis failed"))
        ∧ (r.match_reasoning = .missing →
            ((analyze_resume oracle).match_reasoning = some ""
              ∨ (analyze_resume oracle).match_reasoning
                  = some "Unable to analyze this resume due to an error")))
    ∧ (∀ r a, normalize_analysis_result r = .ok a →
        (r.candidate_name = .null → a.candidate_name = none)
        ∧ (r.email = .null → a.email = none)
        ∧ (r.phone = .null → a.phone = none)
        ∧ (r.matched_skills = .null → a.matched_skills = none)
        ∧ (r.missing_skills = .null → a.missing_skills = none)
        ∧ (r.years_of_experience = .null → a.years_of_experience = none)
        ∧ (r.summary = .null → a.summary = none)
        ∧ (r.match_reasoning = .null → a.match_reasoning = none)
        ∧ (r.strengths = .null → a.strengths = none)
        ∧ (r.areas_for_improvement = .null → a.areas_for_improvement = none)) := by
  have hnull : ∀ (r : OracleJson) (a : Analysis),
      normalize_analysis_result r = .ok a →
      (r.candidate_name = .null → a.candidate_name = none)
      ∧ (r.email = .null → a.email = none)
      ∧ (r.phone = .null → a.phone = none)
      ∧ (r.matched_skills = .null → a.matched_skills = none)
      ∧ (r.missing_skills = .null → a.missing_skills = none)
      ∧ (r.years_of_experience = .null → a.years_of_experience = none)
      ∧ (r.summary = .null → a.summary = none)
      ∧ (r.match_reasoning = .null → a.match_reasoning = none)
      ∧ (r.strengths = .null → a.strengths = none)
      ∧ (r.areas_for_improvement = .null → a.areas_for_improvement = none) := by
    intro r a hn
    obtain ⟨o, s, e, h1, h2, h3, ha⟩ := normalize_ok_fields r a hn
    subst ha
    exact ⟨fun hx => by simp [hx, jGet], fun hx => by simp [hx, jGet],
      fun hx => by simp [hx, jGet], fun hx => by simp [hx, jGet],
      fun hx => by simp [hx, jGet], fun hx => by simp [hx, jGet],
      fun hx => by simp [hx, jGet], fun hx => by simp [hx, jGet],
      fun hx => by simp [hx, jGet], fun hx => by simp [hx, jGet]⟩
  cases oracle with
  | error u =>
    refine ⟨by simp [analyze_resume, get_default_analysis],
      by simp [analyze_resume, get_default_analysis],
      by simp [analyze_resume, get_default_analysis], ?_, hnull⟩
    intro r hr
    exact absurd hr (by simp)
  | ok r =>
    cases hn : normalize_analysis_result r with
    | error u =>
      simp only [analyze_resume, hn]
      refine ⟨by simp [get_default_analysis], by simp [get_default_analysis],
        by simp [get_default_analysis], ?_, hnull⟩
      intro r2 hr2
      exact ⟨fun _ => rfl, fun _ => rfl, fun _ => rfl, fun _ => rfl, fun _ => rfl,
        fun _ => rfl, fun _ => rfl, fun _ => rfl, fun _ => Or.inr rfl,
        fun _ => Or.inr rfl⟩
    | ok a =>
      obtain ⟨o, s, e, h1, h2, h3, ha⟩ := normalize_ok_fields r a hn
      have r1 := clampScore_range _ _ h1
      have r2 := clampScore_range _ _ h2
      have r3 := clampScore_range _ _ h3
      simp only [analyze_resume, hn]
      subst ha
      refine ⟨⟨r1.1, r1.2⟩, ⟨r2.1, r2.2⟩, ⟨r3.1, r3.2⟩, ?_, hnull⟩
      intro r2 hr2
      injection hr2 with hrr
      subst hrr
      exact ⟨fun hx => by simp [hx, jGet], fun hx => by simp [hx, jGet],
        fun hx => by simp [hx, jGet], fun hx => by simp [hx, jGet],
        fun hx => by simp [hx, jGet], fun hx => by simp [hx, jGet],
        fun hx => by simp [hx, jGet], fun hx => by simp [hx, jGet],
        fun hx => Or.inl (by simp [hx, jGet]),
        fun hx => Or.inl (by simp [hx, jGet])⟩

/-- The oracle output with every key missing. -/
def oracleJsonEmpty : OracleJson :=
  { candidate_name := .missing, email := .missing, phone := .missing,
    overall_score := .missing, skill_score := .missing,
    experience_score := .missing, matched_skills := .missing,
    missing_skills := .missing, years_of_experience := .missing,
    summary := .missing, match_reasoning := .missing, strengths := .missing,
    areas_for_improvement := .missing }

/-- Witness for `c6_analyze_resume_amended` at concrete inputs: the
all-keys-missing output gets the documented defaults, and the present-null
email is passed through as null. -/
theorem c6_analyze_resume_amended_witness :
    (analyze_resume (.ok oracleJsonEmpty)).email = some ""
    ∧ (analyze_resume (.ok oracleJsonEmpty)).matched_skills = some []
    ∧ 0 ≤ (analyze_resume (.ok oracleJsonEmpty)).overall_score
    ∧ (analyze_resume (.ok oracleJsonNullEmail)).email = none :=
  ⟨((c6_analyze_resume_amended (.ok oracleJsonEmpty)).2.2.2.1
      oracleJsonEmpty rfl).2.1 rfl,
   ((c6_analyze_resume_amended (.ok oracleJsonEmpty)).2.2.2.1
      oracleJsonEmpty rfl).2.2.2.1 rfl,
   (c6_analyze_resume_amended (.ok oracleJsonEmpty)).1.1,
   ((c6_analyze_resume_amended (.ok oracleJsonNullEmail)).2.2.2.2
      oracleJsonNullEmail (analyze_resume (.ok oracleJsonNullEmail)) rfl).2.1 rfl⟩

/-- A candidate as consumed by `HRAgent.select_and_schedule_interviews`
(`schemas.Candidate`, restricted to the fields the scheduling path reads). -/
structure Candidate where
  id : String
  name : String
  email : String
  summary : String
deriving DecidableEq, Repr

/-- Python `a or b` for strings: `b` when `a` is empty (falsy), else `a`. -/
def pyOrStr (a b : String) : String := if a = "" then b else a

/-- One entry of the `scheduled` list built by
`select_and_schedule_interviews` (`hr_agent.py` lines 184–190).  Times are
minutes, so Python's `timedelta(hours=h)` is `60 * h`. -/
structure ScheduledInterview where
  candidate_id : String
  candidate_name : String
  candidate_email : String
  interview_date : Int
  interview_link : String
deriving DecidableEq, Repr

/-- An email draft as built by
`EmailDraftService.draft_interview_confirmation` (`email_service.py` lines
26–94).  Python renders the interview date into `body` via `strftime` and
an f-string; Gregorian date rendering is irrelevant to every claim, so the
draft carries the date and link it was built from as structured fields (as
the spec's `EmailDraft` data model also lists them) and `body` uses
`toString` of the minute timestamp in the date slot of the template. -/
structure EmailDraft where
  to_email : String
  to_name : String
  subject : String
  body : String
  interview_date : Int
  interview_link : String
deriving DecidableEq, Repr

/-- `EmailDraftService.draft_interview_confirmation`: pure template
instantiation.  The `except` branch of the Python function is unreachable in
this model (string formatting of valid data does not raise). -/
def draft_interview_confirmation (candidate_name candidate_email : String)
    (interview_date : Int) (interview_link : String)
    (job_title company_name : String) : EmailDraft :=
  { to_email := candidate_email
    to_name := candidate_name
    subject := "Interview Confirmation: " ++ job_title ++ " Position - " ++ company_name
    body := "Dear " ++ candidate_name ++ ",\n\n"
      ++ "We are pleased to inform you that you have been selected for an interview for the "
      ++ job_title ++ " position at " ++ company_name ++ ".\n\n"
      ++ "Interview Details:\n- Date: " ++ toString interview_date
      ++ "\n- Duration: 60 minutes\n- Meeting Link: " ++ interview_link ++ "\n\n"
      ++ "Please click on the meeting link to join the interview at the scheduled time. "
      ++ "We recommend joining 5-10 minutes early to ensure you have time to set up your technology.\n\n"
      ++ "Before the interview, please:\n1. Test your microphone and camera\n"
      ++ "2. Ensure you have a stable internet connection\n3. Have a copy of your resume available\n"
      ++ "4. Prepare any questions you may have about the role or our company\n\n"
      ++ "If you need to reschedule or have any questions, please reply to this email as soon as possible.\n\n"
      ++ "We look forward to speaking with you!\n\nBest regards,\nHR Team\n" ++ company_name ++ "\n"
    interview_date := interview_date
    interview_link := interview_link }

/-- The loop of `select_and_schedule_interviews` (`hr_agent.py` lines
159–196).  The booking collaborator `book` returns the event link, or
`none` for every skip path of the loop body (falsy link, calendar API
error, or any exception caught by the `except`).  The tentative date is
`start_date + timedelta(hours=len(scheduled))`, computed before booking;
on success the interview entry and its confirmation draft are appended
together. -/
def scheduleLoop (book : Candidate → Int → Option String) (job_title : String)
    (start_date : Int) :
    List Candidate → List ScheduledInterview → List EmailDraft →
      List ScheduledInterview × List EmailDraft
  | [], scheduled, email_drafts => (scheduled, email_drafts)
  | candidate :: rest, scheduled, email_drafts =>
    let interview_date := start_date + 60 * (scheduled.length : Int)
    match book candidate interview_date with
    | some interview_link =>
      scheduleLoop book job_title start_date rest
        (scheduled ++ [{ candidate_id := candidate.id
                         candidate_name := candidate.name
                         candidate_email := candidate.email
                         interview_date := interview_date
                         interview_link := interview_link }])
        (email_drafts ++ [draft_interview_confirmation candidate.name
          (pyOrStr candidate.email "no-email@example.com") interview_date
          interview_link job_title "Our Company"])
    | none => scheduleLoop book job_title start_date rest scheduled email_drafts

/-- The result dict of `select_and_schedule_interviews`. -/
structure ScheduleResult where
  scheduled_interviews : List ScheduledInterview
  email_drafts : List EmailDraft
  status : String
deriving DecidableEq, Repr

/-- `HRAgent.select_and_schedule_interviews` (`hr_agent.py` lines 120–202):
filter the pool to the requested ids, fail if nothing matches, otherwise
run the booking loop and report "completed". -/
def select_and_schedule_interviews (book : Candidate → Int → Option String)
    (candidate_ids : List String) (candidates : List Candidate)
    (job_title : String) (start_date : Int) : ScheduleResult :=
  let selected_candidates := candidates.filter fun c => candidate_ids.contains c.id
  if selected_candidates.isEmpty then
    { scheduled_interviews := [], email_drafts := [], status := "failed" }
  else
    let r := scheduleLoop book job_title start_date selected_candidates [] []
    { scheduled_interviews := r.1, email_drafts := r.2, status := "completed" }

/-- helper: the booking loop keeps the slot-offset invariant: if the
accumulated interviews sit at `start_date + 60·i` for `i = 0, 1, …`, so do
the final ones — each new entry is booked at
`start_date + 60·(number of successes so far)`. -/
theorem scheduleLoop_dates (book : Candidate → Int → Option String)
    (job_title : String) (start_date : Int) (cs : List Candidate)
    (scheduled : List ScheduledInterview) (email_drafts : List EmailDraft)
    (h : scheduled.map (fun s => s.interview_date)
        = (List.range scheduled.length).map (fun i => start_date + 60 * Int.ofNat i)) :
    (scheduleLoop book job_title start_date cs scheduled email_drafts).1.map
        (fun s => s.interview_date)
      = (List.range
          (scheduleLoop book job_title start_date cs scheduled email_drafts).1.length).map
          (fun i => start_date + 60 * Int.ofNat i) := by
  induction cs generalizing scheduled email_drafts with
  | nil => simpa [scheduleLoop] using h
  | cons candidate rest ih =>
    simp only [scheduleLoop]
    cases book candidate (start_date + 60 * (scheduled.length : Int)) with
    | none => exact ih scheduled email_drafts h
    | some interview_link =>
      apply ih
      simp only [List.map_append, List.length_append, List.map_cons, List.map_nil,
        List.length_cons, List.length_nil, Nat.add_zero, List.range_succ, h,
        Int.ofNat_eq_natCast]

/-- helper: the booking loop returns its accumulators unchanged when every
booking fails. -/
theorem scheduleLoop_all_fail (book : Candidate → Int → Option String)
    (job_title : String) (start_date : Int) (cs : List Candidate)
    (scheduled : List ScheduledInterview) (email_drafts : List EmailDraft)
    (hb : ∀ c t, book c t = none) :
    scheduleLoop book job_title start_date cs scheduled email_drafts
      = (scheduled, email_drafts) := by
  induction cs generalizing scheduled email_drafts with
  | nil => rfl
  | cons candidate rest ih =>
    simp only [scheduleLoop, hb]
    exact ih scheduled email_drafts

/-- helper: the booking loop appends a scheduled entry and its draft
together, preserving the name/email/date pairing between the two lists. -/
theorem scheduleLoop_pairing (book : Candidate → Int → Option String)
    (job_title : String) (start_date : Int) (cs : List Candidate)
    (scheduled : List ScheduledInterview) (email_drafts : List EmailDraft)
    (h1 : email_drafts.map (fun d => d.to_name)
        = scheduled.map (fun s => s.candidate_name))
    (h2 : email_drafts.map (fun d => d.to_email)
        = scheduled.map (fun s => pyOrStr s.candidate_email "no-email@example.com"))
    (h3 : email_drafts.map (fun d => d.interview_date)
        = scheduled.map (fun s => s.interview_date)) :
    ((scheduleLoop book job_title start_date cs scheduled email_drafts).2.map
        (fun d => d.to_name)
      = (scheduleLoop book job_title start_date cs scheduled email_drafts).1.map
          (fun s => s.candidate_name))
    ∧ ((scheduleLoop book job_title start_date cs scheduled email_drafts).2.map
        (fun d => d.to_email)
      = (scheduleLoop book job_title start_date cs scheduled email_drafts).1.map
          (fun s => pyOrStr s.candidate_email "no-email@example.com"))
    ∧ ((scheduleLoop book job_title start_date cs scheduled email_drafts).2.map
        (fun d => d.interview_date)
      = (scheduleLoop book job_title start_date cs scheduled email_drafts).1.map
          (fun s => s.interview_date)) := by
  induction cs generalizing scheduled email_drafts with
  | nil => exact ⟨h1, h2, h3⟩
  | cons candidate rest ih =>
    simp only [scheduleLoop]
    cases book candidate (start_date + 60 * (scheduled.length : Int)) with
    | none => exact ih scheduled email_drafts h1 h2 h3
    | some interview_link =>
      apply ih
      · simp [draft_interview_confirmation, h1]
      · simp [draft_interview_confirmation, h2]
      · simp [draft_interview_confirmation, h3]

/-- Candidates for the concrete 3-candidate scenario. -/
def candA : Candidate := ⟨"a", "Alice", "alice@example.com", "summary a"⟩

def candB : Candidate := ⟨"b", "Bob", "bob@example.com", "summary b"⟩

def candC : Candidate := ⟨"c", "Carol", "", "summary c"⟩

/-- A booking collaborator that fails exactly for the second candidate. -/
def bookFailSecond : Candidate → Int → Option String :=
  fun c _ => if c.id = "b" then none else some ("link-" ++ c.id)

/-- **C2**. In every `select_and_schedule_interviews` result the `i`-th
scheduled interview (0-based) sits at `start_date + i` hours — the offset
counts previous successes, not loop position; and in the concrete
3-candidate run where only the second booking fails, exactly 2 interviews
are scheduled, at offsets 0 and 1 hour (the second is 1 hour after the
first, not 2), with status "completed". -/
theorem c2_interview_offset_counts_successes
    (book : Candidate → Int → Option String) (candidate_ids : List String)
    (candidates : List Candidate) (job_title : String) (start_date : Int) :
    ((select_and_schedule_interviews book candidate_ids candidates job_title
        start_date).scheduled_interviews.map (fun s => s.interview_date)
      = (List.range (select_and_schedule_interviews book candidate_ids candidates
          job_title start_date).scheduled_interviews.length).map
          (fun i => start_date + 60 * Int.ofNat i))
    ∧ ((select_and_schedule_interviews bookFailSecond ["a", "b", "c"]
          [candA, candB, candC] "Engineer" 0).scheduled_interviews.map
          (fun s => s.interview_date) = [0, 60])
    ∧ (select_and_schedule_interviews bookFailSecond ["a", "b", "c"]
        [candA, candB, candC] "Engineer" 0).status = "completed" := by
  refine ⟨?_, by rfl, by rfl⟩
  simp only [select_and_schedule_interviews]
  by_cases hsel : (candidates.filter fun c => candidate_ids.contains c.id).isEmpty = true
  · rw [if_pos hsel]
    rfl
  · rw [if_neg hsel]
    exact scheduleLoop_dates book job_title start_date _ [] [] (by simp)

/-- **C3**. `select_and_schedule_interviews` returns status "failed" with
both lists empty exactly when no pool candidate has a requested id (ids
absent from the pool are silently ignored); whenever some pool candidate is
requested it returns status "completed" — even if every booking fails, in
which case both lists are empty but the status is still "completed". -/
theorem c3_schedule_status_by_intersection
    (book : Candidate → Int → Option String) (candidate_ids : List String)
    (candidates : List Candidate) (job_title : String) (start_date : Int) :
    ((∀ c ∈ candidates, c.id ∉ candidate_ids) →
      select_and_schedule_interviews book candidate_ids candidates job_title start_date
        = { scheduled_interviews := [], email_drafts := [], status := "failed" })
    ∧ ((∃ c ∈ candidates, c.id ∈ candidate_ids) →
      (select_and_schedule_interviews book candidate_ids candidates job_title
        start_date).status = "completed")
    ∧ ((∃ c ∈ candidates, c.id ∈ candidate_ids) → (∀ c t, book c t = none) →
      select_and_schedule_interviews book candidate_ids candidates job_title start_date
        = { scheduled_interviews := [], email_drafts := [], status := "completed" }) := by
  refine ⟨?_, ?_, ?_⟩
  · intro hnone
    have hnil : (candidates.filter fun c => candidate_ids.contains c.id) = [] := by
      rw [List.filter_eq_nil_iff]
      intro c hc
      simp [List.contains, hnone c hc]
    simp only [select_and_schedule_interviews]
    rw [if_pos (by rw [hnil]; rfl)]
  · intro hex
    obtain ⟨c, hc, hid⟩ := hex
    have hmem : c ∈ candidates.filter fun c => candidate_ids.contains c.id := by
      simp [List.mem_filter, List.contains, hc, hid]
    have hne : ¬ (candidates.filter fun c => candidate_ids.contains c.id).isEmpty = true := by
      rw [List.isEmpty_iff]
      intro hnil
      rw [hnil] at hmem
      exact absurd hmem (List.not_mem_nil c)
    simp only [select_and_schedule_interviews]
    rw [if_neg hne]
  · intro hex hb
    obtain ⟨c, hc, hid⟩ := hex
    have hmem : c ∈ candidates.filter fun c => candidate_ids.contains c.id := by
      simp [List.mem_filter, List.contains, hc, hid]
    have hne : ¬ (candidates.filter fun c => candidate_ids.contains c.id).isEmpty = true := by
      rw [List.isEmpty_iff]
      intro hnil
      rw [hnil] at hmem
      exact absurd hmem (List.not_mem_nil c)
    simp only [select_and_schedule_interviews]
    rw [if_neg hne, scheduleLoop_all_fail book job_title start_date _ [] [] hb]

/-- Witness for `c3_schedule_status_by_intersection` at concrete inputs:
an empty intersection fails; a non-empty intersection with an always-failing
booking collaborator still completes with empty lists. -/
theorem c3_schedule_status_by_intersection_witness :
    (select_and_schedule_interviews bookFailSecond ["z"] [candA] "Engineer" 0
      = { scheduled_interviews := [], email_drafts := [], status := "failed" })
    ∧ (select_and_schedule_interviews (fun _ _ => none) ["a"] [candA] "Engineer" 0
      = { scheduled_interviews := [], email_drafts := [], status := "completed" }) :=
  ⟨(c3_schedule_status_by_intersection bookFailSecond ["z"] [candA] "Engineer" 0).1
      (by decide),
   (c3_schedule_status_by_intersection (fun _ _ => none) ["a"] [candA] "Engineer" 0).2.2
      ⟨candA, by decide, by decide⟩ (fun c t => rfl)⟩

/-- **C9**. In every `select_and_schedule_interviews` result the draft list
and the scheduled list pair up: equal lengths, and the `i`-th draft is
addressed to the `i`-th scheduled candidate (same name; same email with
"no-email@example.com" substituted for an empty candidate email) and
carries the same interview date. -/
theorem c9_drafts_pair_scheduled
    (book : Candidate → Int → Option String) (candidate_ids : List String)
    (candidates : List Candidate) (job_title : String) (start_date : Int) :
    ((select_and_schedule_interviews book candidate_ids candidates job_title
        start_date).email_drafts.length
      = (select_and_schedule_interviews book candidate_ids candidates job_title
          start_date).scheduled_interviews.length)
    ∧ ((select_and_schedule_interviews book candidate_ids candidates job_title
        start_date).email_drafts.map (fun d => d.to_name)
      = (select_and_schedule_interviews book candidate_ids candidates job_title
          start_date).scheduled_interviews.map (fun s => s.candidate_name))
    ∧ ((select_and_schedule_interviews book candidate_ids candidates job_title
        start_date).email_drafts.map (fun d => d.to_email)
      = (select_and_schedule_interviews book candidate_ids candidates job_title
          start_date).scheduled_interviews.map
          (fun s => pyOrStr s.candidate_email "no-email@example.com"))
    ∧ ((select_and_schedule_interviews book candidate_ids candidates job_title
        start_date).email_drafts.map (fun d => d.interview_date)
      = (select_and_schedule_interviews book candidate_ids candidates job_title
          start_date).scheduled_interviews.map (fun s => s.interview_date)) := by
  have hpair := scheduleLoop_pairing book job_title start_date
    (candidates.filter fun c => candidate_ids.contains c.id) [] [] rfl rfl rfl
  simp only [select_and_schedule_interviews]
  by_cases hsel : (candidates.filter fun c => candidate_ids.contains c.id).isEmpty = true
  · rw [if_pos hsel]
    exact ⟨rfl, rfl, rfl, rfl⟩
  · rw [if_neg hsel]
    refine ⟨?_, hpair.1, hpair.2.1, hpair.2.2⟩
    have := congrArg List.length hpair.1
    simpa using this

/-- The result dict of `HRAgent.send_confirmations`
(`hr_agent.py` lines 234–240). -/
structure SendResult where
  sent_count : Nat
  failed_count : Nat
  sent_emails : List String
  failed_emails : List String
  status : String
deriving DecidableEq, Repr

/-- The loop of `HRAgent.send_confirmations` (`hr_agent.py` lines 217–232).
The mailer collaborator returns `.ok true` / `.ok false` (its boolean
result) or `.error ()` (it raised); a false or raising send appends the
recipient to `failed`, a true send appends it to `sent`. -/
def sendLoop (send : EmailDraft → Except Unit Bool) :
    List EmailDraft → List String → List String → List String × List String
  | [], sent, failed => (sent, failed)
  | draft :: rest, sent, failed =>
    match send draft with
    | .ok true => sendLoop send rest (sent ++ [draft.to_email]) failed
    | .ok false => sendLoop send rest sent (failed ++ [draft.to_email])
    | .error _ => sendLoop send rest sent (failed ++ [draft.to_email])

/-- `HRAgent.send_confirmations`: iterate the drafts, then report counts,
the two recipient lists and the unconditional status "completed". -/
def send_confirmations (send : EmailDraft → Except Unit Bool)
    (email_drafts : List EmailDraft) : SendResult :=
  let r := sendLoop send email_drafts [] []
  { sent_count := r.1.length, failed_count := r.2.length,
    sent_emails := r.1, failed_emails := r.2, status := "completed" }

/-- The send attempt on a draft succeeded: the mailer returned true (as
opposed to returning false or raising). -/
def sendOk (send : EmailDraft → Except Unit Bool) (d : EmailDraft) : Bool :=
  match send d with
  | .ok true => true
  | .ok false => false
  | .error _ => false

/-- helper: closed form of the send loop — successes and failures are the
two filters of the draft list, projected to recipients. -/
theorem sendLoop_eq_filters (send : EmailDraft → Except Unit Bool)
    (ds : List EmailDraft) (sent failed : List String) :
    sendLoop send ds sent failed
      = (sent ++ (ds.filter (sendOk send)).map (fun d => d.to_email),
         failed ++ (ds.filter fun d => !(sendOk send d)).map (fun d => d.to_email)) := by
  induction ds generalizing sent failed with
  | nil => simp [sendLoop]
  | cons draft rest ih =>
    cases hs : send draft with
    | ok b =>
      cases b with
      | true => simp [sendLoop, sendOk, hs, ih, List.filter_cons]
      | false => simp [sendLoop, sendOk, hs, ih, List.filter_cons]
    | error u => simp [sendLoop, sendOk, hs, ih, List.filter_cons]

/-- **C4**. `send_confirmations` always returns a structured result with
status "completed" (it is a total function: a raising mailer is one of the
modelled outcomes, handled per item): the sent list is exactly the
recipients of the drafts whose send returned true, the failed list is
exactly the recipients of the drafts whose send returned false or raised,
and the two counts are the lengths of those lists. -/
theorem c4_send_confirmations_structured
    (send : EmailDraft → Except Unit Bool) (email_drafts : List EmailDraft) :
    (send_confirmations send email_drafts).status = "completed"
    ∧ (send_confirmations send email_drafts).sent_count
        = (send_confirmations send email_drafts).sent_emails.length
    ∧ (send_confirmations send email_drafts).failed_count
        = (send_confirmations send email_drafts).failed_emails.length
    ∧ (send_confirmations send email_drafts).sent_emails
        = (email_drafts.filter (sendOk send)).map (fun d => d.to_email)
    ∧ (send_confirmations send email_drafts).failed_emails
        = (email_drafts.filter fun d => !(sendOk send d)).map (fun d => d.to_email) := by
  simp [send_confirmations, sendLoop_eq_filters]

/-- A timestamp for the availability sweep: a day index and a time of day
in minutes.  Day 0 is taken to be a Monday, matching Python's `weekday()`
convention (Monday = 0, Saturday = 5, Sunday = 6), so
`weekday = day % 7`.  `datetime` comparison is lexicographic on
(day, time-of-day). -/
structure DT where
  day : Nat
  tod : Nat
deriving DecidableEq, Repr

/-- `datetime` `<=` (lexicographic). -/
def dtLe (a b : DT) : Prop :=
  a.day < b.day ∨ (a.day = b.day ∧ a.tod ≤ b.tod)

instance (a b : DT) : Decidable (dtLe a b) := by
  unfold dtLe
  infer_instance

/-- Strict `datetime` `<`: the "day-ascending, then time-ascending" result
order of the sweep. -/
def dtLt (a b : DT) : Prop :=
  a.day < b.day ∨ (a.day = b.day ∧ a.tod < b.tod)

/-- `datetime + timedelta(minutes=m)`, carrying overflow into later days. -/
def dtAddMinutes (t : DT) (m : Nat) : DT :=
  ⟨t.day + (t.tod + m) / 1440, (t.tod + m) % 1440⟩

/-- `CalendarScheduler._is_slot_free` (`calendar_scheduler.py` lines
116–141).  The calendar collaborator reports, for a window `[lo, hi)`, the
number of events overlapping it (`events().list(...)`), or `none` when the
query raises — in which case the slot counts as not free. -/
def is_slot_free (cal : DT → DT → Option Nat) (start_time end_time : DT) : Bool :=
  match cal start_time end_time with
  | some n => n == 0
  | none => false

/-- The inner hour loop of `find_available_slots` (`calendar_scheduler.py`
lines 98–105): for each hour of `[start_hour, end_hour)`, the hour-aligned
slot start of that day (`replace(hour=hour, minute=0, ...)`) kept when the
calendar reports it free. -/
def slotsForDay (cal : DT → DT → Option Nat) (day : Nat)
    (duration_minutes start_hour end_hour : Nat) : List DT :=
  (List.range' start_hour (end_hour - start_hour)).filterMap fun hour =>
    let slot_start : DT := ⟨day, hour * 60⟩
    let slot_end := dtAddMinutes slot_start duration_minutes
    if is_slot_free cal slot_start slot_end then some slot_start else none

/-- The day loop of `find_available_slots` (`calendar_scheduler.py` lines
93–107): iterate `current_date` from `start_date` while
`current_date <= end_date` in whole days (`+= timedelta(days=1)` keeps the
time of day), collecting the free slots of every non-weekend day
(`weekday() < 5`). -/
def sweepDays (cal : DT → DT → Option Nat) (end_date : DT)
    (duration_minutes start_hour end_hour : Nat) (current_date : DT) : List DT :=
  if _h : dtLe current_date end_date then
    (if current_date.day % 7 < 5 then
        slotsForDay cal current_date.day duration_minutes start_hour end_hour
      else [])
      ++ sweepDays cal end_date duration_minutes start_hour end_hour
          ⟨current_date.day + 1, current_date.tod⟩
  else []
termination_by end_date.day + 1 - current_date.day
decreasing_by
  rcases _h with h | ⟨h, _⟩ <;> simp <;> omega

/-- `CalendarScheduler.find_available_slots` (`calendar_scheduler.py` lines
69–114).  The stored service handle and the outcome of a fresh
`authenticate()` call are explicit parameters, mirroring
`if not self.service: if not self.authenticate(): return []` — `auth =
none` is any authentication failure (missing client libraries, missing
credentials file, or an auth exception).  Working hours beyond 23 would
make Python's `replace(hour=...)` raise (caught, yielding `[]`); they are
outside the modelled domain, and the claim theorem assumes
`end_hour ≤ 24`. -/
def find_available_slots (service auth : Option (DT → DT → Option Nat))
    (start_date end_date : DT) (duration_minutes : Nat)
    (working_hours : Nat × Nat) : List DT :=
  match service.orElse (fun _ => auth) with
  | none => []
  | some cal =>
    sweepDays cal end_date duration_minutes working_hours.1 working_hours.2 start_date

/-- helper: membership in one day's slot list. -/
theorem mem_slotsForDay (cal : DT → DT → Option Nat) (day : Nat)
    (duration_minutes start_hour end_hour : Nat) (s : DT) :
    s ∈ slotsForDay cal day duration_minutes start_hour end_hour
      ↔ ∃ hour, s = ⟨day, hour * 60⟩ ∧ start_hour ≤ hour ∧ hour < end_hour
          ∧ cal ⟨day, hour * 60⟩ (dtAddMinutes ⟨day, hour * 60⟩ duration_minutes)
              = some 0 := by
  simp only [slotsForDay, List.mem_filterMap, List.mem_range',
    Option.ite_none_right_eq_some, Option.some.injEq]
  constructor
  · rintro ⟨hour, ⟨i, hi, rfl⟩, hfree, rfl⟩
    refine ⟨start_hour + 1 * i, rfl, by omega, by omega, ?_⟩
    revert hfree
    unfold is_slot_free
    cases cal ⟨day, (start_hour + 1 * i) * 60⟩
        (dtAddMinutes ⟨day, (start_hour + 1 * i) * 60⟩ duration_minutes) with
    | none => intro hfree; exact absurd hfree (by simp)
    | some n => simp
  · rintro ⟨hour, rfl, h1, h2, hcal⟩
    refine ⟨hour, ⟨hour - start_hour, by omega, by omega⟩, ?_, rfl⟩
    unfold is_slot_free
    rw [hcal]
    rfl

/-- helper: `range'` with step 1 is strictly increasing. -/
theorem pairwise_lt_range_one (s n : Nat) : (List.range' s n).Pairwise (· < ·) := by
  induction n generalizing s with
  | zero => simp
  | succ n ih =>
    rw [List.range'_succ]
    refine List.Pairwise.cons ?_ (ih (s + 1))
    intro b hb
    obtain ⟨i, hi, rfl⟩ := List.mem_range'.mp hb
    omega

/-- helper: one day's slot list is strictly increasing in time of day. -/
theorem slotsForDay_pairwise (cal : DT → DT → Option Nat) (day : Nat)
    (duration_minutes start_hour end_hour : Nat) :
    (slotsForDay cal day duration_minutes start_hour end_hour).Pairwise dtLt := by
  unfold slotsForDay
  refine List.Pairwise.filterMap _ ?_
    (pairwise_lt_range_one start_hour (end_hour - start_hour))
  intro a b hab x hx y hy
  simp only [Option.mem_def, Option.ite_none_right_eq_some, Option.some.injEq] at hx hy
  rw [← hx.2, ← hy.2]
  right
  exact ⟨rfl, by dsimp only; omega⟩

/-- helper (fuel induction): the day sweep starting at `current_date`
contains exactly the free, hour-aligned slots of weekday days `d` with
`current_date.day ≤ d` and `(d, current_date.tod) ≤ end_date` — the loop
compares full datetimes, carrying the start's time of day unchanged. -/
theorem mem_sweepDays_fuel (cal : DT → DT → Option Nat) (end_date : DT)
    (duration_minutes start_hour end_hour : Nat) :
    ∀ (fuel : Nat) (cur : DT),
      end_date.day + 1 - cur.day ≤ fuel →
      ∀ s, (s ∈ sweepDays cal end_date duration_minutes start_hour end_hour cur
        ↔ ∃ d hour, s = ⟨d, hour * 60⟩
            ∧ cur.day ≤ d
            ∧ (d < end_date.day ∨ (d = end_date.day ∧ cur.tod ≤ end_date.tod))
            ∧ d % 7 < 5 ∧ start_hour ≤ hour ∧ hour < end_hour
            ∧ cal ⟨d, hour * 60⟩ (dtAddMinutes ⟨d, hour * 60⟩ duration_minutes)
                = some 0) := by
  intro fuel
  induction fuel with
  | zero =>
    intro cur hfuel s
    have hnot : ¬ dtLe cur end_date := by unfold dtLe; omega
    unfold sweepDays
    rw [dif_neg hnot]
    simp only [List.not_mem_nil, false_iff]
    rintro ⟨d, hour, rfl, hd, hdle, _⟩
    unfold dtLe at hnot
    omega
  | succ fuel ih =>
    intro cur hfuel s
    by_cases h : dtLe cur end_date
    · unfold sweepDays
      rw [dif_pos h, List.mem_append,
        ih ⟨cur.day + 1, cur.tod⟩ (by dsimp only; omega) s]
      unfold dtLe at h
      constructor
      · rintro (hday | hrest)
        · by_cases hwk : cur.day % 7 < 5
          · rw [if_pos hwk] at hday
            obtain ⟨hour, rfl, h1, h2, hcal⟩ :=
              (mem_slotsForDay cal cur.day duration_minutes start_hour end_hour s).mp
                hday
            exact ⟨cur.day, hour, rfl, Nat.le_refl _, by omega, hwk, h1, h2, hcal⟩
          · rw [if_neg hwk] at hday
            exact absurd hday (List.not_mem_nil s)
        · obtain ⟨d, hour, rfl, hd, hdle, hwk, h1, h2, hcal⟩ := hrest
          dsimp only at hd hdle
          exact ⟨d, hour, rfl, by omega, hdle, hwk, h1, h2, hcal⟩
      · rintro ⟨d, hour, rfl, hd, hdle, hwk, h1, h2, hcal⟩
        rcases Nat.eq_or_lt_of_le hd with heq | hlt
        · left
          rw [if_pos (by omega : cur.day % 7 < 5)]
          exact (mem_slotsForDay cal cur.day duration_minutes start_hour end_hour
            ⟨d, hour * 60⟩).mpr ⟨hour, by rw [heq], h1, h2, by rw [heq]; exact hcal⟩
        · right
          exact ⟨d, hour, rfl, by dsimp only; omega, by dsimp only; exact hdle,
            hwk, h1, h2, hcal⟩
    · unfold sweepDays
      rw [dif_neg h]
      unfold dtLe at h
      simp only [List.not_mem_nil, false_iff]
      rintro ⟨d, hour, rfl, hd, hdle, _⟩
      omega

/-- helper: `mem_sweepDays_fuel` with the fuel discharged. -/
theorem mem_sweepDays (cal : DT → DT → Option Nat) (end_date : DT)
    (duration_minutes start_hour end_hour : Nat) (cur s : DT) :
    s ∈ sweepDays cal end_date duration_minutes start_hour end_hour cur
      ↔ ∃ d hour, s = ⟨d, hour * 60⟩
          ∧ cur.day ≤ d
          ∧ (d < end_date.day ∨ (d = end_date.day ∧ cur.tod ≤ end_date.tod))
          ∧ d % 7 < 5 ∧ start_hour ≤ hour ∧ hour < end_hour
          ∧ cal ⟨d, hour * 60⟩ (dtAddMinutes ⟨d, hour * 60⟩ duration_minutes)
              = some 0 :=
  mem_sweepDays_fuel cal end_date duration_minutes start_hour end_hour
    (end_date.day + 1 - cur.day) cur (Nat.le_refl _) s

/-- helper (fuel induction): the sweep output is strictly increasing —
day-ascending, then time-ascending. -/
theorem sweepDays_pairwise_fuel (cal : DT → DT → Option Nat) (end_date : DT)
    (duration_minutes start_hour end_hour : Nat) :
    ∀ (fuel : Nat) (cur : DT),
      end_date.day + 1 - cur.day ≤ fuel →
      (sweepDays cal end_date duration_minutes start_hour end_hour cur).Pairwise
        dtLt := by
  intro fuel
  induction fuel with
  | zero =>
    intro cur hfuel
    have hnot : ¬ dtLe cur end_date := by unfold dtLe; omega
    unfold sweepDays
    rw [dif_neg hnot]
    exact List.Pairwise.nil
  | succ fuel ih =>
    intro cur hfuel
    by_cases h : dtLe cur end_date
    · unfold sweepDays
      rw [dif_pos h, List.pairwise_append]
      have hday : cur.day ≤ end_date.day := by unfold dtLe at h; omega
      refine ⟨?_, ih ⟨cur.day + 1, cur.tod⟩ (by dsimp only; omega), ?_⟩
      · by_cases hwk : cur.day % 7 < 5
        · rw [if_pos hwk]
          exact slotsForDay_pairwise cal cur.day duration_minutes start_hour end_hour
        · rw [if_neg hwk]
          exact List.Pairwise.nil
      · intro a ha b hb
        obtain ⟨d, hour, rfl, hd, _⟩ :=
          (mem_sweepDays cal end_date duration_minutes start_hour end_hour
            ⟨cur.day + 1, cur.tod⟩ b).mp hb
        by_cases hwk : cur.day % 7 < 5
        · rw [if_pos hwk] at ha
          obtain ⟨hour2, rfl, _⟩ :=
            (mem_slotsForDay cal cur.day duration_minutes start_hour end_hour a).mp ha
          left
          dsimp only at hd ⊢
          omega
        · rw [if_neg hwk] at ha
          exact absurd ha (List.not_mem_nil a)
    · unfold sweepDays
      rw [dif_neg h]
      exact List.Pairwise.nil

/-- **C5**. Over a `[start_date, end_date]` range (same time-of-day
ordering, working hours within the day), `find_available_slots` returns
exactly the hour-aligned slot starts on non-Saturday/non-Sunday days of the
inclusive day range, with hour in `[start_hour, end_hour)`, for which the
calendar reports zero overlapping events on
`[slot_start, slot_start + duration)`; the result is ordered day-ascending
then hour-ascending; authentication failure yields `[]` instead of raising;
and a Saturday-only range yields `[]` whatever the working hours. -/
theorem c5_find_available_slots_spec
    (service auth : Option (DT → DT → Option Nat)) (start_date end_date : DT)
    (duration_minutes : Nat) (working_hours : Nat × Nat)
    (htod : start_date.tod ≤ end_date.tod) (_hwh : working_hours.2 ≤ 24) :
    (service = none → auth = none →
      find_available_slots service auth start_date end_date duration_minutes
        working_hours = [])
    ∧ (∀ cal, service.orElse (fun _ => auth) = some cal →
        ∀ s, s ∈ find_available_slots service auth start_date end_date
            duration_minutes working_hours
          ↔ ∃ d hour, s = ⟨d, hour * 60⟩
              ∧ start_date.day ≤ d ∧ d ≤ end_date.day
              ∧ d % 7 < 5
              ∧ working_hours.1 ≤ hour ∧ hour < working_hours.2
              ∧ cal ⟨d, hour * 60⟩ (dtAddMinutes ⟨d, hour * 60⟩ duration_minutes)
                  = some 0)
    ∧ (find_available_slots service auth start_date end_date duration_minutes
        working_hours).Pairwise dtLt
    ∧ (start_date.day = end_date.day → start_date.day % 7 = 5 →
        find_available_slots service auth start_date end_date duration_minutes
          working_hours = []) := by
  refine ⟨?_, ?_, ?_, ?_⟩
  · intro h1 h2
    rw [find_available_slots, h1, h2]
    rfl
  · intro cal hcal s
    rw [find_available_slots, hcal]
    rw [mem_sweepDays]
    constructor
    · rintro ⟨d, hour, rfl, hd, hdle, hwk, hh1, hh2, hc0⟩
      exact ⟨d, hour, rfl, hd, by omega, hwk, hh1, hh2, hc0⟩
    · rintro ⟨d, hour, rfl, hd, hdle, hwk, hh1, hh2, hc0⟩
      exact ⟨d, hour, rfl, hd, by omega, hwk, hh1, hh2, hc0⟩
  · rw [find_available_slots]
    cases hcal : service.orElse (fun _ => auth) with
    | none => exact List.Pairwise.nil
    | some cal =>
      exact sweepDays_pairwise_fuel cal end_date duration_minutes working_hours.1
        working_hours.2 (end_date.day + 1 - start_date.day) start_date (Nat.le_refl _)
  · intro hsame hsat
    rw [find_available_slots]
    cases hcal : service.orElse (fun _ => auth) with
    | none => rfl
    | some cal =>
      rw [List.eq_nil_iff_forall_not_mem]
      intro s hs
      obtain ⟨d, hour, rfl, hd, hdle, hwk, _⟩ :=
        (mem_sweepDays cal end_date duration_minutes working_hours.1
          working_hours.2 start_date _).mp hs
      omega

/-- An always-free calendar, used to instantiate the C5 theorem. -/
def emptyCal : DT → DT → Option Nat := fun _ _ => some 0

/-- Witness for `c5_find_available_slots_spec` at concrete inputs: a failed
authentication yields `[]`, and a Saturday-only range (day 5 with Monday as
day 0) yields `[]` under an always-free calendar. -/
theorem c5_find_available_slots_spec_witness :
    find_available_slots none none ⟨0, 0⟩ ⟨0, 0⟩ 60 (9, 17) = []
    ∧ find_available_slots none (some emptyCal) ⟨5, 0⟩ ⟨5, 0⟩ 60 (9, 17) = [] :=
  ⟨(c5_find_available_slots_spec none none ⟨0, 0⟩ ⟨0, 0⟩ 60 (9, 17)
      (Nat.le_refl 0) (by decide)).1 rfl rfl,
   (c5_find_available_slots_spec none (some emptyCal) ⟨5, 0⟩ ⟨5, 0⟩ 60 (9, 17)
      (Nat.le_refl 0) (by decide)).2.2.2 rfl (by decide)⟩
